import Mathlib

/-!
Shallow embedding of the service-lifecycle and load-generation harness in
`text-generation-inference/integration-tests/service_fixtures.py`, together
with proofs and refutations of the specified properties.

The embedded pieces are:
* `LauncherHandle.health` (lines 47-61): the health-check loop;
* `ContainerLauncherHandle._inner_health` (lines 71-77): container status
  check and log draining with the `_log_since` watermark;
* the environment composition in `docker_launcher` (lines 125-133);
* the image-provisioning branch of `docker_launcher` (lines 135-166);
* the teardown block of `docker_launcher` (lines 186-209) and the
  `contextlib.contextmanager` scope semantics of the `yield` at line 184;
* `generate_load_inner` (lines 232-237).

External collaborators (the docker daemon, the HTTP client, the filesystem,
wall-clock time) are modelled as oracles passed in as function arguments;
everything the python code itself does is translated statement by statement.
-/

namespace ServiceFixtures

/-! ## Health-check loop (`LauncherHandle.health`, lines 47-61)

The loop at each iteration `i` first calls `self._inner_health()` (a container
status query) and then, if that returned `True`, attempts one application-level
generation request.  The outcome of the request at iteration `i` is an oracle
`gen i`: the request can succeed, fail with one of the three transient
connection errors (`ClientConnectorError`, `ClientOSError`,
`ServerDisconnectedError`), or fail with any other exception. -/

/-- Outcome of the probe request `self.client.generate("test", max_new_tokens=1)`
at one iteration of the health loop. -/
inductive GenOutcome where
  | ok : GenOutcome
  /-- one of ClientConnectorError, ClientOSError, ServerDisconnectedError -/
  | transient : GenOutcome
  /-- any other exception; the payload is the text of the underlying error `e` -/
  | fatal (e : String) : GenOutcome
  deriving DecidableEq, Repr

/-- Observable actions performed by the health loop, in program order:
a call to `self._inner_health()` (which queries container status), an
application-level generation attempt, and a `time.sleep(1)`. -/
inductive HEvent where
  | statusQuery (i : Nat) : HEvent
  | genAttempt (i : Nat) : HEvent
  | sleepOne (i : Nat) : HEvent
  deriving DecidableEq, Repr

/-- Terminal outcome of `LauncherHandle.health`. `assertFailed` is the
`assert timeout > 0` at line 48 firing; the other constructors carry the value
of `i` interpolated into the message of the `return`/`raise` that produced
them. `genFailed` corresponds to the `raise` at line 60, which interpolates
nothing (see `raisedMessage`). -/
inductive HealthOutcome where
  | assertFailed : HealthOutcome
  | started (i : Nat) : HealthOutcome
  | crashed (i : Nat) : HealthOutcome
  | genFailed : HealthOutcome
  | timedOut (i : Nat) : HealthOutcome
  deriving DecidableEq, Repr

/-- Message of the exception raised for each terminal outcome, exactly as the
source builds it.  Lines 51 and 61 are f-strings interpolating `i`.  Line 60 is
`raise RuntimeError("Basic generation failed with: {e}")` — a plain string
literal, not an f-string, so the message contains the literal characters
`\x7be\x7d` and nothing about the underlying error (which the bare
`except Exception:` clause does not even bind). -/
def raisedMessage : HealthOutcome → Option String
  | .assertFailed => none
  | .started _ => none
  | .crashed i => some ("Service crashed after " ++ toString i ++ " seconds.")
  | .genFailed => some "Basic generation failed with: \x7be\x7d"
  | .timedOut i => some ("Service failed to start after " ++ toString i ++ " seconds.")

/-- Body of `for i in range(timeout)`, lines 49-58, with `fuel` iterations
remaining and `i` the current loop index.  When the range is exhausted the
python `i` still holds its last value `timeout - 1 = i - 1`, which line 61
interpolates into the timeout message. -/
def healthLoop (inner : Nat → Bool) (gen : Nat → GenOutcome) :
    Nat → Nat → List HEvent × HealthOutcome
  | i, 0 => ([], .timedOut (i - 1))
  | i, fuel + 1 =>
    if inner i then
      match gen i with
      | .ok => ([.statusQuery i, .genAttempt i], .started i)
      | .fatal _ => ([.statusQuery i, .genAttempt i], .genFailed)
      | .transient =>
        let rest := healthLoop inner gen (i + 1) fuel
        (.statusQuery i :: .genAttempt i :: .sleepOne i :: rest.1, rest.2)
    else
      ([.statusQuery i], .crashed i)

/-- `LauncherHandle.health(timeout)`, lines 47-61. `inner i` is the value
returned by `self._inner_health()` and `gen i` the outcome of the generation
request at iteration `i`. The `assert timeout > 0` at line 48 runs before the
loop, so a non-positive timeout produces no events at all. -/
def health (inner : Nat → Bool) (gen : Nat → GenOutcome) (timeout : Int) :
    List HEvent × HealthOutcome :=
  if timeout ≤ 0 then ([], .assertFailed)
  else healthLoop inner gen 0 timeout.toNat

/-- Container-level liveness test of `ContainerLauncherHandle._inner_health`,
line 77: `container.status in ["running", "created"]`. -/
def statusLive (status : String) : Bool :=
  status = "running" || status = "created"

/-- Recognizer for `statusQuery` events. -/
def isStatusQuery : HEvent → Bool
  | .statusQuery _ => true
  | _ => false

/-- Recognizer for `genAttempt` events. -/
def isGenAttempt : HEvent → Bool
  | .genAttempt _ => true
  | _ => false

/-- Recognizer for `sleepOne` events; the number of `sleepOne` events in a
trace is the elapsed wall-clock time of the run, in seconds. -/
def isSleep : HEvent → Bool
  | .sleepOne _ => true
  | _ => false

/-! ## Teardown block of `docker_launcher` (lines 186-209)

The docker calls `container.stop`, `container.wait`, `container.remove` and
`image.remove` are external effects; an oracle `beh` tells for each call
whether it returns normally (`none`) or raises an exception (`some exc`).
The model returns the list of calls actually attempted, in program order, and
the exception (if any) escaping the whole block. -/

/-- Exceptions raised by the docker SDK calls in this file.  Both constructors
are subclasses of python `Exception`, so both are caught by every
`except Exception` clause; `notFound` is additionally caught by the
`except NotFound` clause at line 205. -/
inductive PyExc where
  | notFound : PyExc
  | apiError (msg : String) : PyExc
  deriving DecidableEq, Repr

/-- Docker calls issued by the teardown block, lines 187, 188, 195 and 204. -/
inductive TStep where
  | stop : TStep
  | wait : TStep
  | removeContainer : TStep
  | removeImage : TStep
  deriving DecidableEq, Repr

/-- Teardown block, lines 186-209, executed when the generator resumes past
the `yield`:

* lines 186-191: `try: container.stop(timeout=60); container.wait(timeout=60)`
  — one shared `try`, so when `stop` raises, `wait` is never called; the
  `except Exception` clause logs and suppresses whichever exception escaped;
* lines 192-198: the `finally` block always calls `container.remove(force=True)`
  inside its own `try`, whose `except Exception` logs and suppresses;
* lines 200-209: if a derived image was built (`if image:`), `image.remove(force=True)`
  runs inside a `try` with `except NotFound: pass` and `except Exception`
  logging and suppressing.

Every handler catches every `PyExc`, so no exception escapes the block. -/
def teardown (beh : TStep → Option PyExc) (hasImage : Bool) :
    List TStep × Option PyExc :=
  let body : List TStep × Option PyExc :=
    match beh .stop with
    | some e => ([.stop], some e)
    | none => ([.stop, .wait], beh .wait)
  let _suppressed := body.2
  let afterRemove := body.1 ++ [.removeContainer]
  let _suppressed2 := beh .removeContainer
  if hasImage then
    let _suppressed3 := beh .removeImage
    (afterRemove ++ [.removeImage], none)
  else
    (afterRemove, none)

/-! ## Scope semantics of `docker_launcher` (lines 106-209)

`docker_launcher` is a `@contextlib.contextmanager` generator used as
`with docker_launcher(...) as handle: body`.  Per the semantics of
`contextlib._GeneratorContextManager`:

* when the `with` body returns normally, the generator is resumed at the
  `yield` (line 184) and runs the teardown block;
* when the `with` body raises, the exception is thrown into the generator at
  the `yield`.  The `yield` at line 184 is a bare statement, enclosed in no
  `try`/`finally`, so the exception unwinds the generator immediately: the
  teardown block at lines 186-209 never runs and the exception propagates
  to the caller. -/

/-- Outcome of the body of the `with docker_launcher(...)` block (the health
check, the tests and the load generation run between start and teardown). -/
inductive BodyOutcome where
  | ok : BodyOutcome
  | raises (e : PyExc) : BodyOutcome
  deriving DecidableEq, Repr

/-- Scope exit of `with docker_launcher(...)` after a successful container
start: the teardown docker calls actually performed, and the exception (if
any) propagating to the caller. -/
def withDockerLauncher (beh : TStep → Option PyExc) (hasImage : Bool) :
    BodyOutcome → List TStep × Option PyExc
  | .ok => teardown beh hasImage
  | .raises e => ([], some e)

/-! ## Environment composition (`docker_launcher`, lines 125-133) -/

/-- Constant from line 21. -/
def OPTIMUM_CACHE_REPO_ID : String := "optimum/neuron-testing-cache"

/-- Python `dict` assignment `d[k] = v`: overwrite in place when the key is
present, append otherwise (python dicts preserve insertion order). -/
def dictInsert (d : List (String × String)) (k v : String) :
    List (String × String) :=
  match d with
  | [] => [(k, v)]
  | (k0, v0) :: rest =>
    if k0 = k then (k, v) :: rest else (k0, v0) :: dictInsert rest k v

/-- Python `d.get(k)`. -/
def dictGet (d : List (String × String)) (k : String) : Option String :=
  match d with
  | [] => none
  | (k0, v0) :: rest => if k0 = k then some v0 else dictGet rest k

/-- Allow-list iterated over at line 131. -/
def tuningVars : List String :=
  ["HF_BATCH_SIZE", "HF_SEQUENCE_LENGTH", "HF_AUTO_CAST_TYPE", "HF_NUM_CORES"]

/-- Loop at lines 131-133: `for var in [...]: if var in os.environ:
env[var] = os.environ[var]`.  `osEnviron` is the caller's process
environment. -/
def forwardTuning (osEnviron : String → Option String)
    (env : List (String × String)) : List String → List (String × String)
  | [] => env
  | v :: rest =>
    match osEnviron v with
    | some val => forwardTuning osEnviron (dictInsert env v val) rest
    | none => forwardTuning osEnviron env rest

/-- Lines 125-133. `hfToken` is `HF_TOKEN = huggingface_hub.get_token()` from
line 23 (an external collaborator), `osEnviron` the host process
environment. -/
def composeEnv (hfToken : Option String) (osEnviron : String → Option String) :
    List (String × String) :=
  let env : List (String × String) :=
    [("LOG_LEVEL", "info,text_generation_router=debug"),
     ("CUSTOM_CACHE_REPO", OPTIMUM_CACHE_REPO_ID)]
  let env :=
    match hfToken with
    | some tok => dictInsert (dictInsert env "HUGGING_FACE_HUB_TOKEN" tok) "HF_TOKEN" tok
    | none => env
  forwardTuning osEnviron env tuningVars

/-- Keys the composed environment may contain. -/
def envAllowedKeys : List String :=
  "LOG_LEVEL" :: "CUSTOM_CACHE_REPO" :: "HUGGING_FACE_HUB_TOKEN" :: "HF_TOKEN" :: tuningVars

/-! ## Image provisioning (`docker_launcher`, lines 112-166) -/

/-- Line 116: `container_name = f"tgi-tests-\x7bservice_name\x7d-\x7bport\x7d"`. -/
def containerName (serviceName : String) (port : Nat) : String :=
  "tgi-tests-" ++ serviceName ++ "-" ++ toString port

/-- Result of the provisioning branch: the tag passed to
`client.containers.run`, whether a derived image was built (`image` is not
`None`), and the value of `container_model_id` passed as `--model-id`. -/
structure ProvisionResult where
  dockerTag : String
  isDerived : Bool
  containerModelId : String
  deriving DecidableEq, Repr

/-- Lines 135-164. `dockerImage` is the `DOCKER_IMAGE` constant of line 22;
`isDir` is the result of `os.path.isdir(model_name_or_path)` (a filesystem
oracle).  In the directory branch, line 139 tags the derived image
`f"\x7bcontainer_name\x7d-img"` and line 150 sets
`container_model_id = f"/data/\x7bmodel_name_or_path\x7d"`; otherwise lines
162-164 keep the base tag, build nothing, and pass the reference through. -/
def provision (dockerImage serviceName : String) (port : Nat)
    (modelNameOrPath : String) (isDir : Bool) : ProvisionResult :=
  if isDir then
    { dockerTag := containerName serviceName port ++ "-img"
      isDerived := true
      containerModelId := "/data/" ++ modelNameOrPath }
  else
    { dockerTag := dockerImage
      isDerived := false
      containerModelId := modelNameOrPath }

/-- Substring containment (decidable), used to state that the derived tag
embeds the service name and the port, and that the fatal-probe message does
not embed the underlying error. -/
def strContains (haystack needle : String) : Prop :=
  needle.data <:+: haystack.data

/-! ## Load generation (`generate_load_inner`, lines 232-237)

The inner coroutine builds the full list of request futures before awaiting
anything, then runs `await asyncio.gather(*futures)` with the default
`return_exceptions=False`: when every request succeeds, `gather` returns the
list of results in submission order; when any request fails, the `gather`
call raises that request's exception instead of returning a list.  (The real
scheduler propagates the first failure in completion-time order; the model
propagates the first in submission order — the distinction is invisible to
the properties below, which only inspect which requests failed.) -/

/-- Model of `await asyncio.gather(*futures)` with `return_exceptions` left at
its default `False`. -/
def gather {E A : Type} : List (Except E A) → Except E (List A)
  | [] => .ok []
  | f :: rest =>
    match f with
    | .error e => .error e
    | .ok a =>
      match gather rest with
      | .ok as => .ok (a :: as)
      | .error e => .error e

/-- Lines 232-237: `futures = [client.generate(...) for _ in range(n)]`
followed by `return await asyncio.gather(*futures)`.  `clientGenerate i` is
the outcome of the `i`-th submitted request. -/
def generateLoadInner {E R : Type} (clientGenerate : Nat → Except E R)
    (n : Nat) : Except E (List R) :=
  gather ((List.range n).map clientGenerate)

/-! ## Log watermark of `ContainerLauncherHandle._inner_health` (lines 69-76)

Each poll runs `container.logs(since=self._log_since)` and afterwards stores
`self._log_since = time.time()`.  Time is modelled by abstract ticks: a poll
fetches at tick `fetchTime` (the docker daemon returns the log lines that
exist at that instant and whose timestamp is at or after the watermark) and
then reads the clock at tick `markTime`, with `fetchTime ≤ markTime` since the
clock is read only after the fetch returns.  A log line is identified with
the tick at which the container emitted it. -/

/-- One execution of `_inner_health`, lines 72-74: the tick at which
`container.logs` snapshots the log, and the tick `time.time()` returns for the
new watermark. -/
structure Poll where
  fetchTime : Nat
  markTime : Nat
  deriving DecidableEq, Repr

/-- Time-consistency of a sequence of polls starting from watermark `w`:
each poll fetches no earlier than the stored watermark, stores a mark no
earlier than its fetch, and polls happen in order. -/
def wfPolls : Nat → List Poll → Prop
  | _, [] => True
  | w, p :: rest => w ≤ p.fetchTime ∧ p.fetchTime ≤ p.markTime ∧ wfPolls p.markTime rest

/-- Number of polls that forward the log line emitted at tick `t`, starting
from watermark `w`: a poll returns the line iff the line exists when
`container.logs` snapshots (`t < fetchTime`) and its timestamp is at or after
the `since` watermark (`w ≤ t`); the next poll starts from the stored
`markTime`. -/
def forwardCount (t : Nat) : Nat → List Poll → Nat
  | _, [] => 0
  | w, p :: rest =>
    (if w ≤ t ∧ t < p.fetchTime then 1 else 0) + forwardCount t p.markTime rest

/-- Watermark stored after the last poll of the sequence. -/
def finalMark : Nat → List Poll → Nat
  | w, [] => w
  | _, p :: rest => finalMark p.markTime rest

/-! ## Properties of the health-check loop -/

/-- When the container stays live and every probe request fails transiently,
the loop runs through all its fuel, sleeping once per iteration, and ends in
the timeout outcome carrying the last loop index. -/
theorem healthLoop_transient_run (inner : Nat → Bool) (gen : Nat → GenOutcome)
    (hLive : ∀ i, inner i = true) (hGen : ∀ i, gen i = GenOutcome.transient) :
    ∀ fuel i,
      (healthLoop inner gen i fuel).2 = HealthOutcome.timedOut (i + fuel - 1) ∧
      (healthLoop inner gen i fuel).1.countP isStatusQuery = fuel ∧
      (healthLoop inner gen i fuel).1.countP isSleep = fuel := by
  intro fuel
  induction fuel with
  | zero => intro i; simp [healthLoop]
  | succ n ih =>
    intro i
    have h := ih (i + 1)
    simp only [healthLoop, hLive i, hGen i, if_true]
    refine ⟨?_, ?_, ?_⟩
    · have : i + 1 + n - 1 = i + (n + 1) - 1 := by omega
      simpa [this] using h.1
    · simp [List.countP_cons, isStatusQuery, isSleep, isGenAttempt, h.2.1]
    · simp [List.countP_cons, isStatusQuery, isSleep, isGenAttempt, h.2.2]

/-- Every application-level request in a health-loop trace is immediately
preceded by the container-status query of the same iteration. -/
theorem healthLoop_status_before_gen (inner : Nat → Bool) (gen : Nat → GenOutcome) :
    ∀ fuel i j, HEvent.genAttempt j ∈ (healthLoop inner gen i fuel).1 →
      ∃ l1 l2, (healthLoop inner gen i fuel).1 =
        l1 ++ HEvent.statusQuery j :: HEvent.genAttempt j :: l2 := by
  intro fuel
  induction fuel with
  | zero => intro i j h; simp [healthLoop] at h
  | succ n ih =>
    intro i j h
    by_cases hin : inner i
    · cases hg : gen i with
      | ok =>
        simp only [healthLoop, hin, hg, if_true] at h ⊢
        simp at h
        exact ⟨[], [], by simp [h]⟩
      | fatal e =>
        simp only [healthLoop, hin, hg, if_true] at h ⊢
        simp at h
        exact ⟨[], [], by simp [h]⟩
      | transient =>
        simp only [healthLoop, hin, hg, if_true] at h ⊢
        simp only [List.mem_cons] at h
        rcases h with h | h | h | h
        · cases h
        · obtain rfl : j = i := by cases h; rfl
          exact ⟨[], HEvent.sleepOne j :: (healthLoop inner gen (j + 1) n).1, by simp⟩
        · cases h
        · obtain ⟨l1, l2, hl⟩ := ih (i + 1) j h
          exact ⟨HEvent.statusQuery i :: HEvent.genAttempt i :: HEvent.sleepOne i :: l1, l2,
            by simp [hl]⟩
    · simp only [healthLoop, hin, if_false] at h
      simp at h

/-- When the container is live and the probe transient up to iteration `k`
and the container is dead at iteration `k`, the loop started at `i ≤ k` with
enough fuel ends in the crash outcome at `k`, having slept `k - i` times and
never attempted a request at iteration `k`. -/
theorem healthLoop_crash_run (inner : Nat → Bool) (gen : Nat → GenOutcome) (k : Nat)
    (hDead : inner k = false) :
    ∀ fuel i, i ≤ k → k - i < fuel →
      (∀ j, i ≤ j → j < k → inner j = true ∧ gen j = GenOutcome.transient) →
      (healthLoop inner gen i fuel).2 = HealthOutcome.crashed k ∧
      (healthLoop inner gen i fuel).1.countP isSleep = k - i ∧
      HEvent.genAttempt k ∉ (healthLoop inner gen i fuel).1 := by
  intro fuel
  induction fuel with
  | zero => intro i _ hfuel _; exact absurd hfuel (Nat.not_lt_zero _)
  | succ n ih =>
    intro i hik hfuel hPre
    rcases Nat.eq_or_lt_of_le hik with rfl | hlt
    · simp [healthLoop, hDead, isSleep]
    · obtain ⟨hLive, hGen⟩ := hPre i (le_refl i) hlt
      have ihh := ih (i + 1) hlt (by omega) (fun j hj1 hj2 => hPre j (by omega) hj2)
      simp only [healthLoop, hLive, hGen, if_true]
      refine ⟨ihh.1, ?_, ?_⟩
      · simp [List.countP_cons, isSleep, ihh.2.1]
        omega
      · simp only [List.mem_cons, not_or]
        refine ⟨by simp, ?_, by simp, ihh.2.2⟩
        intro hc
        cases hc
        omega

/-- C4: in every iteration of the health loop the container status is queried
before any application-level request; when the status leaves
`{running, created}` at iteration `k < timeout` (while earlier iterations were
live and transient) the probe terminates with the crash outcome at iteration
`k`, after `k` sleeps — strictly before the timeout elapses — and no request
is attempted at the crash iteration. -/
theorem health_crash_fast_fail (statusAt : Nat → String) (gen : Nat → GenOutcome)
    (timeout : Int) (k : Nat)
    (hk : (k : Int) < timeout)
    (hPre : ∀ j, j < k → statusLive (statusAt j) = true ∧ gen j = GenOutcome.transient)
    (hDead : statusLive (statusAt k) = false) :
    (∀ j, HEvent.genAttempt j ∈ (health (fun i => statusLive (statusAt i)) gen timeout).1 →
      ∃ l1 l2, (health (fun i => statusLive (statusAt i)) gen timeout).1 =
        l1 ++ HEvent.statusQuery j :: HEvent.genAttempt j :: l2) ∧
    (health (fun i => statusLive (statusAt i)) gen timeout).2 = HealthOutcome.crashed k ∧
    (health (fun i => statusLive (statusAt i)) gen timeout).1.countP isSleep = k ∧
    HEvent.genAttempt k ∉ (health (fun i => statusLive (statusAt i)) gen timeout).1 := by
  have h0 : ¬ timeout ≤ 0 := by omega
  have hfuel : k - 0 < timeout.toNat := by omega
  have hrun := healthLoop_crash_run (fun i => statusLive (statusAt i)) gen k hDead
    timeout.toNat 0 (Nat.zero_le k) hfuel (fun j _ hj => hPre j hj)
  constructor
  · intro j hj
    simp only [health, h0, if_false] at hj ⊢
    exact healthLoop_status_before_gen _ gen timeout.toNat 0 j hj
  · simp only [health, h0, if_false]
    simpa using hrun

/-- Witness for `health_crash_fast_fail`: with a 10-second timeout, a
container whose status becomes "exited" at iteration 2 (after two live,
transient iterations) crashes the probe at iteration 2. -/
theorem health_crash_fast_fail_witness :
    ((2 : Nat) : Int) < 10 ∧
    (health (fun i => statusLive (if i < 2 then "running" else "exited"))
      (fun _ => GenOutcome.transient) 10).2 = HealthOutcome.crashed 2 := by
  refine ⟨by decide, ?_⟩
  exact (health_crash_fast_fail (fun i => if i < 2 then "running" else "exited")
    (fun _ => GenOutcome.transient) 10 2 (by decide)
    (fun j hj => by
      have : j < 2 := hj
      interval_cases j <;> exact ⟨rfl, rfl⟩)
    (by decide)).2.1

/-- C5: when the container stays live throughout and every readiness request
fails with a transient connection error, the health check performs exactly
`timeout` polling iterations, sleeping one second in each, and then ends in
the timeout outcome (whose message interpolates the last loop index
`timeout - 1`). -/
theorem health_timeout_iterations (inner : Nat → Bool) (gen : Nat → GenOutcome)
    (timeout : Int) (hT : 1 ≤ timeout)
    (hLive : ∀ i, inner i = true) (hGen : ∀ i, gen i = GenOutcome.transient) :
    (health inner gen timeout).2 = HealthOutcome.timedOut (timeout.toNat - 1) ∧
    (health inner gen timeout).1.countP isStatusQuery = timeout.toNat ∧
    (health inner gen timeout).1.countP isSleep = timeout.toNat := by
  have h0 : ¬ timeout ≤ 0 := by omega
  simp only [health, h0, if_false]
  simpa using healthLoop_transient_run inner gen hLive hGen timeout.toNat 0

/-- Witness for `health_timeout_iterations` at timeout 3. -/
theorem health_timeout_iterations_witness :
    (1 : Int) ≤ 3 ∧
    (health (fun _ => true) (fun _ => GenOutcome.transient) 3).2 =
      HealthOutcome.timedOut 2 ∧
    (health (fun _ => true) (fun _ => GenOutcome.transient) 3).1.countP isSleep = 3 := by
  have h := health_timeout_iterations (fun _ => true) (fun _ => GenOutcome.transient) 3
    (by decide) (fun _ => rfl) (fun _ => rfl)
  exact ⟨by decide, h.1, h.2.2⟩

/-- C3 (refutation of the fatal-probe part): when the readiness request fails
with a non-transient error ("boom") at iteration 2, the probe terminates with
the generation-failure outcome, but the raised message is the constant literal
"Basic generation failed with: \x7be\x7d" — produced by a plain (non-f)
string at line 60 — which neither mentions the underlying error text nor the
elapsed wait time. -/
theorem health_fatal_message_literal :
    (health (fun _ => true)
      (fun i => if i < 2 then GenOutcome.transient else GenOutcome.fatal "boom") 60).2 =
      HealthOutcome.genFailed ∧
    raisedMessage HealthOutcome.genFailed =
      some "Basic generation failed with: \x7be\x7d" ∧
    ¬ strContains "Basic generation failed with: \x7be\x7d" "boom" ∧
    ¬ strContains "Basic generation failed with: \x7be\x7d" "2" := by
  refine ⟨by decide, rfl, ?_, ?_⟩ <;> simp only [strContains] <;> decide

/-- C10: a non-positive timeout fails the `assert timeout > 0` at line 48
before any container-status query or readiness request happens: the event
trace is empty and the outcome is the assertion failure. -/
theorem health_assert_nonpositive_timeout (inner : Nat → Bool)
    (gen : Nat → GenOutcome) (timeout : Int) (h : timeout ≤ 0) :
    health inner gen timeout = ([], HealthOutcome.assertFailed) := by
  simp [health, h]

/-- Witness for `health_assert_nonpositive_timeout` at timeout 0. -/
theorem health_assert_nonpositive_timeout_witness :
    (0 : Int) ≤ 0 ∧
    health (fun _ => true) (fun _ => GenOutcome.transient) 0 =
      ([], HealthOutcome.assertFailed) :=
  ⟨by decide, health_assert_nonpositive_timeout _ _ 0 (by decide)⟩

/-! ## Properties of teardown and the launcher scope -/

/-- C6 (amended): teardown attempts `stop`, then `wait` only when `stop` did
not raise (the two share one try/except at lines 186-191); it then always
calls `container.remove` and, when a derived image exists, always calls
`image.remove`, whatever the earlier steps raised; and no exception from any
teardown step propagates to the caller. -/
theorem teardown_amended (beh : TStep → Option PyExc) (hasImage : Bool) :
    (teardown beh hasImage).1 =
      (match beh TStep.stop with
       | none => [TStep.stop, TStep.wait]
       | some _ => [TStep.stop]) ++ [TStep.removeContainer] ++
      (if hasImage then [TStep.removeImage] else []) ∧
    (teardown beh hasImage).2 = none := by
  unfold teardown
  cases beh TStep.stop <;> cases hasImage <;> simp

/-- C6 (counterexample): when `container.stop` raises, `container.wait` is
never called — the shared try/except at lines 186-191 jumps straight to the
handler — so the claimed step sequence stop → wait → remove container →
remove image does not happen: `wait` is skipped. -/
theorem teardown_stop_failure_skips_wait :
    (teardown
      (fun s => if s = TStep.stop then some (PyExc.apiError "stop timed out") else none)
      true).1 = [TStep.stop, TStep.removeContainer, TStep.removeImage] ∧
    TStep.wait ∉ (teardown
      (fun s => if s = TStep.stop then some (PyExc.apiError "stop timed out") else none)
      true).1 := by
  decide

/-- C1 (code defect): the `yield` of `docker_launcher` (line 184) is not
enclosed in a try/finally, so when the with-body raises after a successful
container start — a failed health check or a failed load run — the exception
is thrown into the generator and unwinds it before the teardown block: not a
single teardown call happens, the container and the derived image leak, and
the exception propagates.  Teardown runs only on the success path. -/
theorem withDockerLauncher_skips_teardown_on_failure :
    withDockerLauncher (fun _ => none) true
        (BodyOutcome.raises (PyExc.apiError "Service failed to start after 59 seconds.")) =
      ([], some (PyExc.apiError "Service failed to start after 59 seconds.")) ∧
    (withDockerLauncher (fun _ => none) true BodyOutcome.ok).1 =
      [TStep.stop, TStep.wait, TStep.removeContainer, TStep.removeImage] := by
  decide

/-! ## Properties of the load harness -/

/-- Gather over a list of already-successful outcomes returns exactly those
outcomes, in order. -/
theorem gather_map_ok {E A : Type} (l : List A) :
    gather (l.map (Except.ok : A → Except E A)) = Except.ok l := by
  induction l with
  | nil => rfl
  | cons a rest ih => simp [gather, ih]

/-- Gather propagates a failure whenever any element failed. -/
theorem gather_error_of_mem {E A : Type} (l : List (Except E A)) :
    (∃ x ∈ l, ∃ e, x = Except.error e) → ∃ e, gather l = Except.error e := by
  induction l with
  | nil => rintro ⟨x, hx, _⟩; cases hx
  | cons a rest ih =>
    rintro ⟨x, hx, e, he⟩
    rcases List.mem_cons.mp hx with rfl | hxr
    · exact ⟨e, by simp [gather, he]⟩
    · cases a with
      | error e0 => exact ⟨e0, by simp [gather]⟩
      | ok v =>
        obtain ⟨e1, he1⟩ := ih ⟨x, hxr, e, he⟩
        exact ⟨e1, by simp [gather, he1]⟩

/-- C2 (amended): when all `n` submitted requests succeed, the harness
returns exactly `n` results, index-aligned with submission order (the `i`-th
returned result is the `i`-th request's response); when any of the `n`
requests fails, the whole `asyncio.gather` call raises instead, and no
per-request outcome list is produced. -/
theorem generate_load_amended {E R : Type} (f : Nat → Except E R) (n : Nat) :
    (∀ g : Nat → R, (∀ i, i < n → f i = Except.ok (g i)) →
      generateLoadInner f n = Except.ok ((List.range n).map g)) ∧
    ((∃ i, i < n ∧ ∃ e, f i = Except.error e) →
      ∃ e, generateLoadInner f n = Except.error e) := by
  constructor
  · intro g hg
    have hmap : (List.range n).map f = ((List.range n).map g).map Except.ok := by
      rw [List.map_map]
      exact List.map_congr_left (fun i hi => hg i (List.mem_range.mp hi))
    rw [generateLoadInner, hmap, gather_map_ok]
  · rintro ⟨i, hin, e, he⟩
    exact gather_error_of_mem _ ⟨f i, List.mem_map_of_mem f (List.mem_range.mpr hin), e, he⟩

/-- Witness for `generate_load_amended`: three all-successful requests give
the three responses in submission order. -/
theorem generate_load_amended_witness :
    generateLoadInner (fun i => (Except.ok (i * 2) : Except String Nat)) 3 =
      Except.ok [0, 2, 4] := by
  have h := (generate_load_amended (fun i => (Except.ok (i * 2) : Except String Nat)) 3).1
    (fun i => i * 2) (fun i _ => rfl)
  exact h.trans (by rfl)

/-- C2 (counterexample): with concurrency 2 where only the second request
fails, the harness does not return 2 per-request outcomes: `asyncio.gather`
with its default `return_exceptions=False` propagates the failure, so the
call raises and the first request's successful response is lost. -/
theorem generate_load_partial_failure_raises :
    generateLoadInner
      (fun i => if i = 0 then Except.ok (42 : Nat) else Except.error "boom") 2 =
      Except.error "boom" := by
  rfl

/-! ## Properties of the environment composition -/

/-- Looking up the key just inserted returns the inserted value. -/
theorem dictGet_insert_self (d : List (String × String)) (k v : String) :
    dictGet (dictInsert d k v) k = some v := by
  induction d with
  | nil => simp [dictInsert, dictGet]
  | cons hd tl ih =>
    obtain ⟨k0, v0⟩ := hd
    by_cases h : k0 = k <;> simp [dictInsert, dictGet, h, ih]

/-- Inserting one key leaves lookups of other keys unchanged. -/
theorem dictGet_insert_ne (d : List (String × String)) (k v k' : String)
    (h : k ≠ k') : dictGet (dictInsert d k v) k' = dictGet d k' := by
  induction d with
  | nil => simp [dictInsert, dictGet, h]
  | cons hd tl ih =>
    obtain ⟨k0, v0⟩ := hd
    by_cases h0 : k0 = k
    · subst h0
      simp [dictInsert, dictGet, h]
    · simp [dictInsert, dictGet, h0, ih]

/-- Lookup after the tuning-variable forwarding loop: a key in the iterated
list that is present in the host environment gets the host value; every other
key keeps its prior binding. -/
theorem dictGet_forwardTuning (os : String → Option String) (vars : List String) :
    ∀ (env : List (String × String)) (k : String),
      dictGet (forwardTuning os env vars) k =
        if k ∈ vars ∧ (os k).isSome then os k else dictGet env k := by
  induction vars with
  | nil => intro env k; simp [forwardTuning]
  | cons v rest ih =>
    intro env k
    cases hv : os v with
    | none =>
      rw [forwardTuning, hv, ih]
      by_cases hkv : k = v
      · subst hkv
        simp [hv]
      · simp [List.mem_cons, hkv]
    | some val =>
      rw [forwardTuning, hv, ih]
      by_cases hkv : k = v
      · subst hkv
        by_cases hkr : k ∈ rest ∧ (os k).isSome
        · simp [hkr, List.mem_cons, hv]
        · simp only [hkr, if_false, dictGet_insert_self]
          simp [List.mem_cons, hv]
      · rw [dictGet_insert_ne env v val k (fun he => hkv he.symm)]
        simp [List.mem_cons, hkv]

/-- Lookup in a two-entry literal dict. -/
theorem dictGet_pair (k1 v1 k2 v2 k : String) :
    dictGet [(k1, v1), (k2, v2)] k =
      if k1 = k then some v1 else if k2 = k then some v2 else none := by
  rfl

/-- C7: the composed container environment always binds the log-level and
cache-repository variables to their fixed values; binds the auth token under
both recognized names exactly when a token is present (and binds neither name
otherwise); forwards each of the four allow-listed tuning variables exactly
as found in the caller's process environment; and contains no key outside the
fixed allow-list — no other host variable leaks into the container. -/
theorem composeEnv_policy (hfToken : Option String)
    (osEnviron : String → Option String) :
    dictGet (composeEnv hfToken osEnviron) "LOG_LEVEL" =
      some "info,text_generation_router=debug" ∧
    dictGet (composeEnv hfToken osEnviron) "CUSTOM_CACHE_REPO" =
      some OPTIMUM_CACHE_REPO_ID ∧
    (∀ tok, hfToken = some tok →
      dictGet (composeEnv hfToken osEnviron) "HUGGING_FACE_HUB_TOKEN" = some tok ∧
      dictGet (composeEnv hfToken osEnviron) "HF_TOKEN" = some tok) ∧
    (hfToken = none →
      dictGet (composeEnv hfToken osEnviron) "HUGGING_FACE_HUB_TOKEN" = none ∧
      dictGet (composeEnv hfToken osEnviron) "HF_TOKEN" = none) ∧
    (∀ v, v ∈ tuningVars →
      dictGet (composeEnv hfToken osEnviron) v = osEnviron v) ∧
    (∀ k, dictGet (composeEnv hfToken osEnviron) k ≠ none → k ∈ envAllowedKeys) := by
  cases hfToken with
  | none =>
    refine ⟨?_, ?_, ?_, ?_, ?_, ?_⟩
    · rw [composeEnv, dictGet_forwardTuning]
      simp [tuningVars, dictGet]
    · rw [composeEnv, dictGet_forwardTuning]
      simp [tuningVars, dictGet]
    · intro tok htok; cases htok
    · intro _
      constructor <;> (rw [composeEnv, dictGet_forwardTuning]; simp [tuningVars, dictGet])
    · intro v hv
      rw [composeEnv, dictGet_forwardTuning]
      cases hos : osEnviron v with
      | some val => simp [hv, hos]
      | none =>
        simp only [hos, Option.isSome_none, Bool.false_eq_true, and_false, if_false]
        fin_cases hv <;> simp [dictGet]
    · intro k hk
      rw [composeEnv, dictGet_forwardTuning] at hk
      by_cases hmem : k ∈ tuningVars ∧ (osEnviron k).isSome
      · simp [envAllowedKeys, hmem.1]
      · rw [if_neg hmem] at hk
        simp only [dictGet_pair] at hk
        by_cases h1 : "LOG_LEVEL" = k
        · simp [envAllowedKeys, ← h1]
        · by_cases h2 : "CUSTOM_CACHE_REPO" = k
          · simp [envAllowedKeys, ← h2]
          · simp [h1, h2] at hk
  | some tok =>
    have hbase : composeEnv (some tok) osEnviron =
        forwardTuning osEnviron
          (dictInsert (dictInsert
            [("LOG_LEVEL", "info,text_generation_router=debug"),
             ("CUSTOM_CACHE_REPO", OPTIMUM_CACHE_REPO_ID)]
            "HUGGING_FACE_HUB_TOKEN" tok) "HF_TOKEN" tok) tuningVars := rfl
    have hinserted : dictInsert (dictInsert
        [("LOG_LEVEL", "info,text_generation_router=debug"),
         ("CUSTOM_CACHE_REPO", OPTIMUM_CACHE_REPO_ID)]
        "HUGGING_FACE_HUB_TOKEN" tok) "HF_TOKEN" tok =
        [("LOG_LEVEL", "info,text_generation_router=debug"),
         ("CUSTOM_CACHE_REPO", OPTIMUM_CACHE_REPO_ID),
         ("HUGGING_FACE_HUB_TOKEN", tok), ("HF_TOKEN", tok)] := by
      simp [dictInsert, OPTIMUM_CACHE_REPO_ID]
    refine ⟨?_, ?_, ?_, ?_, ?_, ?_⟩
    · rw [hbase, hinserted, dictGet_forwardTuning]
      simp [tuningVars, dictGet]
    · rw [hbase, hinserted, dictGet_forwardTuning]
      simp [tuningVars, dictGet]
    · rintro tok' ⟨rfl⟩
      constructor <;>
        (rw [hbase, hinserted, dictGet_forwardTuning]; simp [tuningVars, dictGet])
    · intro h; cases h
    · intro v hv
      rw [hbase, hinserted, dictGet_forwardTuning]
      cases hos : osEnviron v with
      | some val => simp [hv, hos]
      | none =>
        simp only [hos, Option.isSome_none, Bool.false_eq_true, and_false, if_false]
        fin_cases hv <;> simp [dictGet]
    · intro k hk
      rw [hbase, hinserted, dictGet_forwardTuning] at hk
      by_cases hmem : k ∈ tuningVars ∧ (osEnviron k).isSome
      · simp [envAllowedKeys, hmem.1]
      · rw [if_neg hmem] at hk
        simp only [dictGet] at hk
        by_cases h1 : "LOG_LEVEL" = k
        · simp [envAllowedKeys, ← h1]
        · by_cases h2 : "CUSTOM_CACHE_REPO" = k
          · simp [envAllowedKeys, ← h2]
          · by_cases h3 : "HUGGING_FACE_HUB_TOKEN" = k
            · simp [envAllowedKeys, ← h3]
            · by_cases h4 : "HF_TOKEN" = k
              · simp [envAllowedKeys, ← h4]
              · simp [h1, h2, h3, h4] at hk

/-- Witness for `composeEnv_policy`: with a token present and a host
environment holding only `HF_NUM_CORES` and `PATH`, the token appears under
both names and the tuning variable is forwarded with the host value. -/
theorem composeEnv_policy_witness :
    dictGet (composeEnv (some "secret")
      (fun v => if v = "HF_NUM_CORES" then some "2"
                else if v = "PATH" then some "/usr/bin" else none))
      "HUGGING_FACE_HUB_TOKEN" = some "secret" ∧
    dictGet (composeEnv (some "secret")
      (fun v => if v = "HF_NUM_CORES" then some "2"
                else if v = "PATH" then some "/usr/bin" else none))
      "HF_NUM_CORES" = some "2" := by
  constructor
  · exact ((composeEnv_policy (some "secret") _).2.2.1 "secret" rfl).1
  · have h := (composeEnv_policy (some "secret")
      (fun v => if v = "HF_NUM_CORES" then some "2"
                else if v = "PATH" then some "/usr/bin" else none)).2.2.2.2.1
      "HF_NUM_CORES" (by simp [tuningVars])
    simpa using h

/-! ## Properties of image provisioning -/

/-- C8: for a model reference that is a local directory, provisioning marks
the image as derived, tags it with a string embedding both the service name
and the port (the tag is `tgi-tests-<service>-<port>-img`), and points the
container's model argument at the fixed in-container path `/data/<reference>`;
for a non-directory (hub-style) reference, provisioning returns the base
image tag unchanged, builds no derived image, and passes the reference string
itself as the model argument. -/
theorem provision_spec (dockerImage serviceName : String) (port : Nat)
    (modelRef : String) :
    ((provision dockerImage serviceName port modelRef true).isDerived = true ∧
     strContains (provision dockerImage serviceName port modelRef true).dockerTag
       serviceName ∧
     strContains (provision dockerImage serviceName port modelRef true).dockerTag
       (toString port) ∧
     (provision dockerImage serviceName port modelRef true).containerModelId =
       "/data/" ++ modelRef) ∧
    ((provision dockerImage serviceName port modelRef false).dockerTag = dockerImage ∧
     (provision dockerImage serviceName port modelRef false).isDerived = false ∧
     (provision dockerImage serviceName port modelRef false).containerModelId =
       modelRef) := by
  refine ⟨⟨rfl, ⟨"tgi-tests-".data, ("-" ++ toString port ++ "-img").data, ?_⟩,
    ⟨("tgi-tests-" ++ serviceName ++ "-").data, "-img".data, ?_⟩, rfl⟩,
    rfl, rfl, rfl⟩ <;>
    simp [provision, containerName, strContains]

/-! ## Properties of the log-draining watermark -/

/-- A line timestamped before the current watermark is never forwarded by a
time-consistent run: every later poll filters from an even larger
watermark. -/
theorem forwardCount_eq_zero_of_lt (t : Nat) :
    ∀ (w : Nat) (ps : List Poll), wfPolls w ps → t < w → forwardCount t w ps = 0 := by
  intro w ps
  induction ps generalizing w with
  | nil => intro _ _; rfl
  | cons p rest ih =>
    intro hwf hlt
    obtain ⟨h1, h2, h3⟩ := hwf
    rw [forwardCount, if_neg (by omega), Nat.zero_add]
    exact ih p.markTime h3 (by omega)

/-- C9 (amended): across any time-consistent sequence of polls, no log line
is ever forwarded twice (the fetched window `[watermark, fetch)` of one poll
lies entirely below every later watermark); and under the additional
assumption that each poll's stored watermark coincides with its fetch instant
(no time passes between `container.logs` returning and `time.time()` being
read), every line emitted at or after the initial watermark and before the
final watermark is forwarded exactly once.  Without that assumption a line
can be dropped — see `log_line_dropped_between_fetch_and_mark`. -/
theorem log_watermark_amended :
    (∀ (t w : Nat) (ps : List Poll), wfPolls w ps → forwardCount t w ps ≤ 1) ∧
    (∀ (t w : Nat) (ps : List Poll), wfPolls w ps →
      (∀ p ∈ ps, p.markTime = p.fetchTime) →
      w ≤ t → t < finalMark w ps → forwardCount t w ps = 1) := by
  constructor
  · intro t w ps
    induction ps generalizing w with
    | nil => intro _; simp [forwardCount]
    | cons p rest ih =>
      intro hwf
      obtain ⟨h1, h2, h3⟩ := hwf
      rw [forwardCount]
      by_cases hc : w ≤ t ∧ t < p.fetchTime
      · rw [if_pos hc, forwardCount_eq_zero_of_lt t p.markTime rest h3 (by omega)]
      · rw [if_neg hc, Nat.zero_add]
        exact ih p.markTime h3
  · intro t w ps
    induction ps generalizing w with
    | nil =>
      intro _ _ hle hlt
      rw [finalMark] at hlt
      omega
    | cons p rest ih =>
      intro hwf hmk hle hlt
      obtain ⟨h1, h2, h3⟩ := hwf
      have hpm : p.markTime = p.fetchTime := hmk p (List.mem_cons_self p rest)
      rw [finalMark] at hlt
      rw [forwardCount]
      by_cases hc : t < p.fetchTime
      · rw [if_pos ⟨hle, hc⟩,
          forwardCount_eq_zero_of_lt t p.markTime rest h3 (by omega)]
      · rw [if_neg (by omega), Nat.zero_add]
        exact ih p.markTime h3 (fun q hq => hmk q (List.mem_cons_of_mem p hq))
          (by omega) hlt

/-- Witness for `log_watermark_amended`: with watermarks coinciding with
fetches, the line emitted at tick 2 is forwarded exactly once by the polls
fetching at ticks 3 and 5. -/
theorem log_watermark_amended_witness :
    forwardCount 2 0 [⟨3, 3⟩, ⟨5, 5⟩] = 1 :=
  log_watermark_amended.2 2 0 [⟨3, 3⟩, ⟨5, 5⟩]
    ⟨by decide, by decide, by decide, by decide, trivial⟩
    (by intro p hp; fin_cases hp <;> rfl)
    (by decide) (by decide)

/-- C9 (counterexample): a line emitted at tick 2 — after the first poll's
`container.logs` snapshot at tick 1 but before that poll's `time.time()`
watermark at tick 3 (the clock is read only after the fetch returns) — is
forwarded by no poll at all: the first poll's snapshot predates the line and
the second poll's since-filter starts at 3.  The claim that no line emitted
between two consecutive polls is dropped is therefore false. -/
theorem log_line_dropped_between_fetch_and_mark :
    wfPolls 0 [⟨1, 3⟩, ⟨5, 5⟩] ∧
    forwardCount 2 0 [⟨1, 3⟩, ⟨5, 5⟩] = 0 := by
  exact ⟨⟨by decide, by decide, by decide, by decide, trivial⟩, by decide⟩

